import Mathlib

/-!
Verification of the WaddleTracker backend's schedule-resolution and
streak-computation core, embedded shallowly from the TypeScript source.

Conventions of the embedding:
* Calendar dates are integers counting days (the CheckIn `date` field is
  day-granular per the data model: a calendar day with no sub-day
  semantics).  The JavaScript expression
  `Math.floor((a.getTime() - b.getTime()) / 86400000)` on day-aligned
  timestamps equals the integer difference of the day numbers, and the
  range check `gte: today, lt: tomorrow` equals equality of day numbers.
* JavaScript `%` is truncated modulo (sign of the dividend): `Int.tmod`.
* JavaScript `array[i]` with `i` out of range yields `undefined`, so the
  subsequent `.trim()` call throws a TypeError; fallible computations are
  embedded in `Except String`.
* The Prisma store is a `State` record; a handler or helper that writes
  through Prisma is a function from `State` to a result paired with the
  updated `State`.
-/

/-- A row of the `User` table.  `streak_count` is read by the library
streak helper (`src/src/lib/streak.ts`); `current_streak`,
`longest_streak`, `total_checkins` are written back by the handlers in
`src/api/index.ts`. -/
structure User where
  id : String
  discord_id : String
  streak_count : Nat
  current_streak : Nat
  longest_streak : Nat
  total_checkins : Nat
deriving DecidableEq

/-- A row of the `Schedule` table (one per user): `schedule_type` is
"weekly", "rotating" or "custom"; the seven weekday booleans are used by
weekly schedules; `rotation_pattern` is a comma-separated token string
used by rotating schedules; `created_at` (a day number) anchors the
rotation's day zero. -/
structure Schedule where
  id : String
  user_id : String
  schedule_type : String
  rotation_pattern : Option String
  current_rotation_day : Int
  is_active : Bool
  created_at : Int
  sunday : Bool
  monday : Bool
  tuesday : Bool
  wednesday : Bool
  thursday : Bool
  friday : Bool
  saturday : Bool
deriving DecidableEq

/-- A row of the `CheckIn` table; `date` is the day number of the
calendar date, `status` is "went", "missed" or "rest". -/
structure CheckIn where
  id : String
  user_id : String
  date : Int
  status : String
deriving DecidableEq

/-- The relational store reached through the Prisma client. -/
structure State where
  users : List User
  schedules : List Schedule
  checkins : List CheckIn
deriving DecidableEq

deriving instance DecidableEq for Except

/-- The value returned by `calculateStreak` in `src/api/index.ts`. -/
structure StreakData where
  current_streak : Nat
  longest_streak : Nat
  total_checkins : Nat
deriving DecidableEq

/-- JavaScript `date.getDay()` (0 = Sunday .. 6 = Saturday) for a day
number, evaluated in UTC: day 0 (1970-01-01) is a Thursday. -/
def jsGetDay (d : Int) : Nat := (Int.emod (d + 4) 7).toNat

/-- The `dayFields` array lookup of `getScheduledDayType`:
`['sunday','monday','tuesday','wednesday','thursday','friday','saturday']`
indexed by `getDay()`. -/
def dayField (s : Schedule) : Nat → Bool
  | 0 => s.sunday
  | 1 => s.monday
  | 2 => s.tuesday
  | 3 => s.wednesday
  | 4 => s.thursday
  | 5 => s.friday
  | 6 => s.saturday
  | _ => false

/-- JavaScript truthiness of the `rotation_pattern` column: `null` and
the empty string are falsy. -/
def rotationTruthy : Option String → Bool
  | none => false
  | some p => p != ""

/-- JavaScript `string.split(',')` on the character list: splitting the
empty string yields one empty field, and every comma opens a new
field. -/
def splitCharsOnComma : List Char → List (List Char)
  | [] => [[]]
  | c :: rest =>
    let r := splitCharsOnComma rest
    if c = ',' then [] :: r
    else
      match r with
      | [] => [[c]]
      | g :: gs => (c :: g) :: gs

/-- JavaScript `string.split(',')`. -/
def jsSplitOnComma (s : String) : List String :=
  (splitCharsOnComma s.data).map (fun cs => String.mk cs)

/-- The whitespace characters relevant to `String.prototype.trim` for
the token vocabulary at hand. -/
def isWhitespaceChar (c : Char) : Bool :=
  c = ' ' || c = '\t' || c = '\n' || c = '\r'

/-- JavaScript `string.trim()`: strip whitespace from both ends. -/
def jsTrim (s : String) : String :=
  String.mk (((s.data.dropWhile isWhitespaceChar).reverse.dropWhile isWhitespaceChar).reverse)

/-- JavaScript `string.toLowerCase()` on the ASCII token vocabulary. -/
def jsToLower (s : String) : String :=
  String.mk (s.data.map Char.toLower)

/-- Embedding of `getScheduledDayType` (src/api/index.ts lines 5-41).
Looks up the user's schedule; inactive or missing schedules resolve to
`none`.  Weekly schedules read the weekday boolean.  Rotating schedules
compute `daysSinceStart` (floored ms division, exact on day numbers),
take `daysSinceStart % pattern.length` with JavaScript's truncated
modulo (`Int.tmod`), index the pattern, and then persist the index into
`current_rotation_day` before returning.  A negative index makes
`pattern[patternIndex]` come out `undefined`, so `.trim()` throws: that
path is `Except.error`.  The error is raised before the cursor write,
matching the statement order of the source. -/
def getScheduledDayType (st : State) (userId : String) (date : Int) :
    Except String (Option String × State) :=
  match st.schedules.find? (fun s => s.user_id == userId) with
  | none => Except.ok (none, st)
  | some schedule =>
    if !schedule.is_active then Except.ok (none, st)
    else if schedule.schedule_type == "weekly" then
      Except.ok (some (if dayField schedule (jsGetDay date) then "workout" else "rest"), st)
    else if schedule.schedule_type == "rotating" && rotationTruthy schedule.rotation_pattern then
      let pattern := jsSplitOnComma (schedule.rotation_pattern.getD "")
      let daysSinceStart := date - schedule.created_at
      let patternIndex := Int.tmod daysSinceStart pattern.length
      if 0 ≤ patternIndex then
        let dayType := jsToLower (jsTrim (pattern.getD patternIndex.toNat ""))
        let st2 : State := { st with
          schedules := st.schedules.map (fun s =>
            if s.id == schedule.id then { s with current_rotation_day := patternIndex } else s) }
        Except.ok (some (if dayType == "rest" then "rest" else "workout"), st2)
      else Except.error "TypeError"
    else Except.ok (none, st)

/-- Modelled from the spec: the resolver's rotating branch as the spec
mandates it, with a floored modulo (`Int.emod` for a positive modulus)
so the index is always in `[0, length pattern)`; the source instead
uses truncated modulo.  Returns the trimmed, lowercased token. -/
def resolveRotatingFloored (pattern : List String) (daysSinceStart : Int) : String :=
  let idx := Int.emod daysSinceStart pattern.length
  jsToLower (jsTrim (pattern.getD idx.toNat ""))

/-- The virtual rest entry fabricated by `calculateStreak`
(src/api/index.ts lines 66-80): a sentinel record with id
"virtual_rest" dated today. -/
def virtualRest (userId : String) (today : Int) : CheckIn :=
  { id := "virtual_rest", user_id := userId, date := today, status := "rest" }

/-- The virtual-entry insertion of `calculateStreak` (lines 55-81): when
today's scheduled day type is "rest" and no check-in is dated today, a
virtual rest entry is prepended to the in-memory list. -/
def historyWithVirtual (userId : String) (dt : Option String) (today : Int)
    (checkins : List CheckIn) : List CheckIn :=
  if dt == some "rest" && !(checkins.any (fun c => c.date == today)) then
    virtualRest userId today :: checkins
  else checkins

/-- The body of the backward current-streak loop (lines 101-117), on the
date sequence after the first entry: a gap of exactly 1 day increments
the count and continues, a gap greater than 1 breaks, any other gap
(0 for duplicates) continues without incrementing.  Returns the number
of increments performed before the break. -/
def currentScanGo (prev : Int) : List Int → Nat
  | [] => 0
  | d :: rest =>
    if prev - d = 1 then 1 + currentScanGo d rest
    else if prev - d > 1 then 0
    else currentScanGo d rest

/-- The current-streak computation (lines 91-118) on the date sequence
of the in-memory history: zero unless some entry is dated today; when
one is, the count starts at 1 at the head of the list and the loop adds
the increments. -/
def currentDates (today : Int) (ds : List Int) : Nat :=
  if ds.any (fun d => d == today) then
    match ds with
    | [] => 0
    | p :: rest => 1 + currentScanGo p rest
  else 0

/-- The current streak of an in-memory history: the scan reads only the
`date` field of each entry. -/
def currentStreakOf (today : Int) (l : List CheckIn) : Nat :=
  currentDates today (l.map (fun c => c.date))

/-- The body of the longest-streak loop (lines 126-139): running count
`temp` and maximum `long`; a gap of 1 increments and updates the
maximum, a gap greater than 1 resets the running count to 1, any other
gap leaves both unchanged. -/
def longestScanGo (prev : Int) (temp long : Nat) : List Int → Nat
  | [] => long
  | d :: rest =>
    if prev - d = 1 then longestScanGo d (temp + 1) (max long (temp + 1)) rest
    else if prev - d > 1 then longestScanGo d 1 long rest
    else longestScanGo d temp long rest

/-- The longest-streak computation (lines 122-139) on the date sequence:
both the running count and the maximum start at 1. -/
def longestDates : List Int → Nat
  | [] => 1
  | p :: rest => longestScanGo p 1 1 rest

/-- The longest streak of an in-memory history: the scan reads only the
`date` field of each entry. -/
def longestStreakOf (l : List CheckIn) : Nat :=
  longestDates (l.map (fun c => c.date))

/-- The pure tail of `calculateStreak` (lines 55-146) after the store
reads: insert the virtual entry when applicable, return zeros on an
empty history, otherwise run both scans and count the persisted entries
(`id !== 'virtual_rest'`) for `total_checkins`. -/
def calcCore (userId : String) (dt : Option String) (today : Int)
    (sorted : List CheckIn) : StreakData :=
  let hist := historyWithVirtual userId dt today sorted
  if hist.isEmpty then { current_streak := 0, longest_streak := 0, total_checkins := 0 }
  else
    { current_streak := currentStreakOf today hist
      longest_streak := longestStreakOf hist
      total_checkins := (hist.filter (fun c => c.id != "virtual_rest")).length }

/-- Descending insertion by date, modelling the store's
`orderBy: { date: 'desc' }`. -/
def insertByDateDesc (c : CheckIn) : List CheckIn → List CheckIn
  | [] => [c]
  | d :: rest => if d.date < c.date then c :: d :: rest else d :: insertByDateDesc c rest

/-- Sort a check-in list by date, descending. -/
def sortByDateDesc (l : List CheckIn) : List CheckIn :=
  l.foldr insertByDateDesc []

/-- Embedding of `calculateStreak` (src/api/index.ts lines 43-146): load
the user's check-ins sorted by date descending, resolve today's day
type (which may throw, and may write the rotation cursor), and run the
pure core.  No user-existence check is performed. -/
def calculateStreak (st : State) (userId : String) (today : Int) :
    Except String (StreakData × State) :=
  let checkins := sortByDateDesc (st.checkins.filter (fun c => c.user_id == userId))
  match getScheduledDayType st userId today with
  | Except.error e => Except.error e
  | Except.ok (dt, st2) => Except.ok (calcCore userId dt today checkins, st2)

/-- Embedding of `calculateStreak` in `src/src/lib/streak.ts` (lines
10-29): look the user up and fail with "User not found" when absent,
otherwise return the streak fields stored on the user row. -/
def calculateStreakLib (st : State) (userId : String) : Except String StreakData :=
  match st.users.find? (fun u => u.id == userId) with
  | none => Except.error "User not found"
  | some user =>
    Except.ok { current_streak := user.streak_count
                longest_streak := user.longest_streak
                total_checkins := user.total_checkins }

/-- The body fields of a Discord check-in request that the handler
reads; absent JSON fields are `none`. -/
structure DiscordCheckinReq where
  discord_id : String
  username : String
  status : Option String
  date : Option Int
deriving DecidableEq

/-- JavaScript `status || 'went'`: undefined and the empty string are
falsy and default to "went". -/
def statusOrWent : Option String → String
  | none => "went"
  | some s => if s == "" then "went" else s

/-- Embedding of `handleDiscordCheckin` (src/api/index.ts lines
1247-1314) up to the user-row streak update; `today` is the current
day, `newId` the id the store assigns to a created row.  The duplicate
check looks for an existing check-in dated today
(`gte: today, lt: tomorrow`, which at day granularity is date
equality), but rejects only when `status !== 'rest'`.  The created row
carries the request's date when present, otherwise today.  The
subsequent `calculateStreak` call can throw; the catch block answers
500 but the created row remains (there is no transaction). -/
def handleDiscordCheckin (st : State) (req : DiscordCheckinReq) (today : Int)
    (newId : String) : Nat × State :=
  if req.discord_id == "" || req.username == "" then (400, st)
  else
    match st.users.find? (fun u => u.discord_id == req.discord_id) with
    | none => (404, st)
    | some user =>
      let existingCheckin := st.checkins.find? (fun c => c.user_id == user.id && c.date == today)
      if existingCheckin.isSome && req.status != some "rest" then (400, st)
      else
        let newCheckin : CheckIn :=
          { id := newId, user_id := user.id, date := req.date.getD today
            status := statusOrWent req.status }
        let st1 : State := { st with checkins := st.checkins ++ [newCheckin] }
        match calculateStreak st1 user.id today with
        | Except.error _ => (500, st1)
        | Except.ok (sd, st2) =>
          (200, { st2 with
            users := st2.users.map (fun u2 =>
              if u2.id == user.id then
                { u2 with current_streak := sd.current_streak
                          longest_streak := sd.longest_streak
                          total_checkins := sd.total_checkins }
              else u2) })

/-! ## Concrete fixtures used by the evaluation theorems -/

/-- A store holding one active rotating schedule for user "u1" with the
three-token pattern "upper,lower,rest" anchored at day 0. -/
def rotState : State :=
  { users := [], checkins := []
    schedules := [{ id := "s1", user_id := "u1", schedule_type := "rotating"
                    rotation_pattern := some "upper,lower,rest"
                    current_rotation_day := 0, is_active := true, created_at := 0
                    sunday := false, monday := false, tuesday := false, wednesday := false
                    thursday := false, friday := false, saturday := false }] }

/-- `rotState` after the resolver has persisted rotation index `i`. -/
def rotStateAt (i : Int) : State :=
  { users := [], checkins := []
    schedules := [{ id := "s1", user_id := "u1", schedule_type := "rotating"
                    rotation_pattern := some "upper,lower,rest"
                    current_rotation_day := i, is_active := true, created_at := 0
                    sunday := false, monday := false, tuesday := false, wednesday := false
                    thursday := false, friday := false, saturday := false }] }

/-! ## C1: rotating resolution one day before created_at -/

/-- C1: the claim says resolving a date one day before a rotating
schedule's `created_at` yields the last pattern token via a floored
modulo, never erroring.  On the code, `daysSinceStart = -1` and
JavaScript's truncated modulo gives `patternIndex = -1`, so
`pattern[-1]` is `undefined` and `.trim()` throws: the call errors
instead of resolving.  The spec-mandated floored modulo would indeed
have produced the last token "rest". -/
theorem C1_truncated_modulo_error :
    getScheduledDayType rotState "u1" (-1) = Except.error "TypeError"
    ∧ resolveRotatingFloored ["upper", "lower", "rest"] (-1) = "rest"
    ∧ ["upper", "lower", "rest"].getLast? = some "rest" := by
  refine ⟨by decide, by decide, by decide⟩

/-! ## C2: resolution is not a pure read -/

/-- C2: the claim says day-type resolution performs no write and leaves
`current_rotation_day` unchanged.  On the code, resolving day 1 for the
rotating fixture persists `current_rotation_day := 1`, producing a
store different from the input store: resolution is a write. -/
theorem C2_resolution_writes_cursor :
    getScheduledDayType rotState "u1" 1 = Except.ok (some "workout", rotStateAt 1)
    ∧ rotStateAt 1 ≠ rotState
    ∧ (rotStateAt 1).schedules.map (fun s => s.current_rotation_day) ≠
        rotState.schedules.map (fun s => s.current_rotation_day) := by
  refine ⟨by decide, by decide, by decide⟩

/-! ## C8: periodicity of rotating resolution -/

/-- C8: the claim says resolution is periodic with period N (the pattern
length).  For the three-token fixture, resolving day -1 throws (the
truncated-modulo index is -1) while resolving day -1 + 3 = 2 succeeds
with "rest": the two results differ, so periodicity fails on the code
for dates preceding `created_at`. -/
theorem C8_periodicity_violation :
    getScheduledDayType rotState "u1" (-1) = Except.error "TypeError"
    ∧ getScheduledDayType rotState "u1" 2 = Except.ok (some "rest", rotStateAt 2)
    ∧ getScheduledDayType rotState "u1" (-1) ≠ getScheduledDayType rotState "u1" 2 := by
  refine ⟨by decide, by decide, by decide⟩

/-! ## C3: per-(user, date) uniqueness under the Discord check-in handler -/

/-- A store with one registered user "u1" (Discord id "d1") who already
has a persisted check-in dated day 10. -/
def dupState : State :=
  { users := [{ id := "u1", discord_id := "d1", streak_count := 0, current_streak := 0
                longest_streak := 0, total_checkins := 0 }]
    schedules := []
    checkins := [{ id := "c1", user_id := "u1", date := 10, status := "went" }] }

/-- A Discord check-in request for that user with status "rest" and no
explicit date. -/
def dupRestReq : DiscordCheckinReq :=
  { discord_id := "d1", username := "kenta", status := some "rest", date := none }

/-- The same request with status "went". -/
def dupWentReq : DiscordCheckinReq :=
  { discord_id := "d1", username := "kenta", status := some "went", date := none }

/-- C3: the claim says a check-in submission by a user who already has a
check-in dated today is rejected without creating a second row for
every status, preserving at-most-one row per (user, date).  On the
code, the duplicate check is skipped when `status === 'rest'` (the
handler's comment: only prevent duplicate check-ins if it is not a rest
day), so a rest submission creates a second row for the same user and
day, while the same submission with status "went" is indeed rejected
with no new row. -/
theorem C3_rest_duplicate_row :
    (dupState.checkins.filter (fun c => c.user_id == "u1" && c.date == (10 : Int))).length = 1
    ∧ ((handleDiscordCheckin dupState dupRestReq 10 "c2").2.checkins.filter
        (fun c => c.user_id == "u1" && c.date == (10 : Int))).length = 2
    ∧ (handleDiscordCheckin dupState dupWentReq 10 "c2").1 = 400
    ∧ (handleDiscordCheckin dupState dupWentReq 10 "c2").2 = dupState := by
  refine ⟨by decide, by decide, by decide, by decide⟩

/-! ## C4: UserNotFound semantics of streak computation -/

/-- The empty store: no users, schedules or check-ins. -/
def emptyState : State := { users := [], schedules := [], checkins := [] }

/-- C4 counterexample: the claim says streak computation fails with
UserNotFound whenever the userId does not identify an existing user.
The engine-level `calculateStreak` of `src/api/index.ts` performs no
user lookup: on the empty store, where user "u1" does not exist, it
succeeds and returns zeros instead of failing. -/
theorem C4_engine_no_user_check :
    emptyState.users.find? (fun u => u.id == "u1") = none
    ∧ calculateStreak emptyState "u1" 0 =
        Except.ok ({ current_streak := 0, longest_streak := 0, total_checkins := 0 }, emptyState) := by
  refine ⟨by decide, by decide⟩

/-- C4 amended: the library-level `calculateStreakLib`
(`src/src/lib/streak.ts`, behind `GET /api/streak/[userId]`) fails with
"User not found" exactly when the user row is absent and succeeds when
it exists; the engine-level `calculateStreak` of `src/api/index.ts`
performs no user-existence check and returns a result even for a
nonexistent user (its HTTP callers look the user up first); a missing
or inactive schedule is never an error for the engine and, because the
day type then resolves to `none`, no virtual rest entry is
synthesized. -/
theorem C4_amended_usernotfound (st : State) (uid : String) :
    (calculateStreakLib st uid = Except.error "User not found" ↔
      st.users.find? (fun u => u.id == uid) = none)
    ∧ (∀ today : Int, st.schedules.find? (fun s => s.user_id == uid) = none →
        calculateStreak st uid today = Except.ok
          (calcCore uid none today
            (sortByDateDesc (st.checkins.filter (fun c => c.user_id == uid))), st))
    ∧ (∀ (today : Int) (sched : Schedule),
        st.schedules.find? (fun s => s.user_id == uid) = some sched → sched.is_active = false →
        calculateStreak st uid today = Except.ok
          (calcCore uid none today
            (sortByDateDesc (st.checkins.filter (fun c => c.user_id == uid))), st))
    ∧ (∀ (dt : Option String) (today : Int) (l : List CheckIn), dt ≠ some "rest" →
        historyWithVirtual uid dt today l = l) := by
  refine ⟨?_, ?_, ?_, ?_⟩
  · unfold calculateStreakLib
    cases h : st.users.find? (fun u => u.id == uid) <;> simp
  · intro today h
    simp [calculateStreak, getScheduledDayType, h]
  · intro today sched h hact
    simp [calculateStreak, getScheduledDayType, h, hact]
  · intro dt today l hdt
    have hb : (dt == some "rest") = false := beq_eq_false_iff_ne.mpr hdt
    simp [historyWithVirtual, hb]

/-- Witness for C4's amended claim at a concrete store: a store with a
single user "u1" and no schedule, queried for the absent user "zz". -/
theorem C4_amended_usernotfound_witness :
    (calculateStreakLib dupState "zz" = Except.error "User not found" ↔
      dupState.users.find? (fun u => u.id == "zz") = none)
    ∧ calculateStreak dupState "zz" 0 = Except.ok
        (calcCore "zz" none 0
          (sortByDateDesc (dupState.checkins.filter (fun c => c.user_id == "zz"))), dupState) :=
  ⟨(C4_amended_usernotfound dupState "zz").1,
   (C4_amended_usernotfound dupState "zz").2.1 0 (by decide)⟩

/-! ## C7: the virtual rest entry and a fresh user -/

/-- Helper: `getScheduledDayType` never touches the CheckIn table; its
only write is the rotation cursor on the Schedule table. -/
theorem getScheduledDayType_preserves_checkins {st : State} {uid : String} {d : Int}
    {r : Option String} {st2 : State}
    (h : getScheduledDayType st uid d = Except.ok (r, st2)) : st2.checkins = st.checkins := by
  unfold getScheduledDayType at h
  split at h
  · simp only [Except.ok.injEq, Prod.mk.injEq] at h
    rw [← h.2]
  · split at h
    · simp only [Except.ok.injEq, Prod.mk.injEq] at h
      rw [← h.2]
    · split at h
      · simp only [Except.ok.injEq, Prod.mk.injEq] at h
        rw [← h.2]
      · split at h
        · dsimp only at h
          split at h
          · simp only [Except.ok.injEq, Prod.mk.injEq] at h
            rw [← h.2]
          · exact Except.noConfusion h
        · simp only [Except.ok.injEq, Prod.mk.injEq] at h
          rw [← h.2]

/-- C7: a user with zero persisted check-ins whose schedule resolves
today to "rest" gets `current_streak = 1`, `longest_streak = 1` and
`total_checkins = 0`; the virtual entry drives both streaks, is not
counted in the total, and the CheckIn table is never written. -/
theorem C7_virtual_rest_streak (st : State) (uid : String) (today : Int) (st2 : State)
    (hnone : st.checkins.filter (fun c => c.user_id == uid) = [])
    (hres : getScheduledDayType st uid today = Except.ok (some "rest", st2)) :
    calculateStreak st uid today =
      Except.ok ({ current_streak := 1, longest_streak := 1, total_checkins := 0 }, st2)
    ∧ st2.checkins = st.checkins := by
  constructor
  · unfold calculateStreak
    rw [hnone, hres]
    simp [sortByDateDesc, calcCore, historyWithVirtual, virtualRest, currentStreakOf,
      currentDates, currentScanGo, longestStreakOf, longestDates, longestScanGo]
  · exact getScheduledDayType_preserves_checkins hres

/-- A store with an all-rest weekly schedule for user "u1" and no
check-ins. -/
def weeklyRestState : State :=
  { users := [], checkins := []
    schedules := [{ id := "s1", user_id := "u1", schedule_type := "weekly"
                    rotation_pattern := none
                    current_rotation_day := 0, is_active := true, created_at := 0
                    sunday := false, monday := false, tuesday := false, wednesday := false
                    thursday := false, friday := false, saturday := false }] }

/-- Witness for C7 at a concrete store: day 0 resolves to "rest" under
the all-false weekly schedule and the user has no check-ins. -/
theorem C7_virtual_rest_streak_witness :
    calculateStreak weeklyRestState "u1" 0 =
      Except.ok ({ current_streak := 1, longest_streak := 1, total_checkins := 0 }, weeklyRestState)
    ∧ weeklyRestState.checkins = weeklyRestState.checkins :=
  C7_virtual_rest_streak weeklyRestState "u1" 0 weeklyRestState (by decide) (by decide)

/-! ## C5: the current-streak scan counts the maximal chain of
consecutive days ending at today -/

/-- Helper: on a descending date list with head `p`, the count `1 +
currentScanGo p ds` is exactly the size of the maximal chain of
consecutive days `p, p-1, ...` present in the list: every day down to
the count is present and the next one is absent. -/
theorem csg_chain (ds : List Int) : ∀ p : Int,
    (p :: ds).Pairwise (fun a b => b ≤ a) →
    ((∀ j : Nat, j < 1 + currentScanGo p ds → p - (j : Int) ∈ p :: ds) ∧
      p - ((1 + currentScanGo p ds : Nat) : Int) ∉ p :: ds) := by
  induction ds with
  | nil =>
    intro p _
    constructor
    · intro j hj
      simp only [currentScanGo] at hj
      have hj0 : j = 0 := by omega
      subst hj0
      simp
    · intro hmem
      simp only [currentScanGo] at hmem
      rcases List.mem_cons.mp hmem with hcase | hcase
      · omega
      · exact absurd hcase (List.not_mem_nil _)
  | cons d rest ih =>
    intro p hp
    have hdp : d ≤ p := (List.pairwise_cons.mp hp).1 d (List.mem_cons_self d rest)
    have hrest : (d :: rest).Pairwise (fun a b => b ≤ a) := (List.pairwise_cons.mp hp).2
    have hrestle : ∀ x ∈ rest, x ≤ d := (List.pairwise_cons.mp hrest).1
    by_cases h1 : p - d = 1
    · have hcs : currentScanGo p (d :: rest) = 1 + currentScanGo d rest := by
        simp [currentScanGo, h1]
      obtain ⟨ihmem, ihnot⟩ := ih d hrest
      rw [hcs]
      constructor
      · intro j hj
        match j with
        | 0 => simp
        | Nat.succ k =>
          have hk : k < 1 + currentScanGo d rest := by omega
          have hmem := ihmem k hk
          have heq : p - ((k + 1 : Nat) : Int) = d - (k : Int) := by push_cast; omega
          rw [heq]
          exact List.mem_cons_of_mem p hmem
      · intro hmem
        have heq : p - ((1 + (1 + currentScanGo d rest) : Nat) : Int) =
            d - ((1 + currentScanGo d rest : Nat) : Int) := by push_cast; omega
        rw [heq] at hmem
        rcases List.mem_cons.mp hmem with hcase | hcase
        · have : (0 : Int) < ((1 + currentScanGo d rest : Nat) : Int) := by positivity
          omega
        · exact ihnot hcase
    · by_cases h2 : p - d > 1
      · have hcs : currentScanGo p (d :: rest) = 0 := by
          simp [currentScanGo, h1, h2]
        rw [hcs]
        constructor
        · intro j hj
          have hj0 : j = 0 := by omega
          subst hj0
          simp
        · intro hmem
          rcases List.mem_cons.mp hmem with hcase | hcase
          · omega
          · rcases List.mem_cons.mp hcase with hcase2 | hcase2
            · omega
            · have := hrestle _ hcase2
              omega
      · have hd : d = p := by omega
        subst hd
        have hcs : currentScanGo d (d :: rest) = currentScanGo d rest := by
          simp [currentScanGo, h1, h2]
        obtain ⟨ihmem, ihnot⟩ := ih d hrest
        rw [hcs]
        constructor
        · intro j hj
          exact List.mem_cons_of_mem d (ihmem j hj)
        · intro hmem
          rcases List.mem_cons.mp hmem with hcase | hcase
          · have : (0 : Int) < ((1 + currentScanGo d rest : Nat) : Int) := by positivity
            omega
          · exact ihnot hcase

/-- Helper: the current-streak count on a descending date list all of
whose dates are at most `today`, when `today` is present, is the size
of the maximal chain of consecutive days ending at `today`. -/
theorem currentDates_chain (ds : List Int) (today : Int)
    (hs : ds.Pairwise (fun a b => b ≤ a)) (hb : ∀ d ∈ ds, d ≤ today)
    (hmem : today ∈ ds) :
    (∀ j : Nat, j < currentDates today ds → today - (j : Int) ∈ ds) ∧
      today - ((currentDates today ds : Nat) : Int) ∉ ds := by
  cases ds with
  | nil => exact absurd hmem (List.not_mem_nil today)
  | cons p rest =>
    have hp : p = today := by
      rcases List.mem_cons.mp hmem with hcase | hcase
      · exact hcase.symm
      · have h1 := hb p (List.mem_cons_self p rest)
        have h2 := (List.pairwise_cons.mp hs).1 today hcase
        omega
    subst hp
    have hany : (p :: rest).any (fun d => d == p) = true := by simp
    have hcd : currentDates p (p :: rest) = 1 + currentScanGo p rest := by
      simp [currentDates, hany]
    rw [hcd]
    exact csg_chain rest p hs

/-- Helper: a date predicate applied through the date projection. -/
theorem any_dates_eq (l : List CheckIn) (t : Int) :
    ((l.map (fun c => c.date)).any (fun d => d == t)) = l.any (fun c => c.date == t) := by
  induction l with
  | nil => rfl
  | cons a r ih => simp [ih]

/-- C5: on a date-ordered history with no future-dated entry, if an
entry dated today exists then `current_streak` is the length of the
backward run from today: every day `today - j` for `j` below the count
is present in the history and the day right past the run,
`today - current_streak`, is absent (so a gap of more than one day is
where the scan stopped, duplicates not counting); if no entry is dated
today the current streak is 0. -/
theorem C5_current_streak_chain (l : List CheckIn) (today : Int)
    (hs : (l.map (fun c => c.date)).Pairwise (fun a b => b ≤ a))
    (hb : ∀ c ∈ l, c.date ≤ today) :
    (l.any (fun c => c.date == today) = false → currentStreakOf today l = 0)
    ∧ (l.any (fun c => c.date == today) = true →
        (∀ j : Nat, j < currentStreakOf today l → ∃ c ∈ l, c.date = today - (j : Int))
        ∧ ¬ ∃ c ∈ l, c.date = today - ((currentStreakOf today l : Nat) : Int)) := by
  constructor
  · intro hno
    have hno2 : (l.map (fun c => c.date)).any (fun d => d == today) = false := by
      rw [any_dates_eq]
      exact hno
    unfold currentStreakOf currentDates
    rw [hno2]
    simp
  · intro hyes
    have hmem : today ∈ l.map (fun c => c.date) := by
      rw [List.any_eq_true] at hyes
      obtain ⟨c, hc, hceq⟩ := hyes
      rw [beq_iff_eq] at hceq
      exact List.mem_map.mpr ⟨c, hc, hceq⟩
    have hb2 : ∀ d ∈ l.map (fun c => c.date), d ≤ today := by
      intro d hd
      obtain ⟨c, hc, rfl⟩ := List.mem_map.mp hd
      exact hb c hc
    obtain ⟨h1, h2⟩ := currentDates_chain (l.map (fun c => c.date)) today hs hb2 hmem
    constructor
    · intro j hj
      obtain ⟨c, hc, hce⟩ := List.mem_map.mp (h1 j hj)
      exact ⟨c, hc, hce⟩
    · rintro ⟨c, hc, hce⟩
      exact h2 (List.mem_map.mpr ⟨c, hc, hce⟩)

/-- A concrete history for the C5 witness: entries dated 5, 4, 2
(duplicates absent), queried with today = 5. -/
def chainHistory : List CheckIn :=
  [{ id := "a", user_id := "u1", date := 5, status := "went" },
   { id := "b", user_id := "u1", date := 4, status := "rest" },
   { id := "c", user_id := "u1", date := 2, status := "went" }]

/-- Witness for C5 at the concrete history: both hypotheses hold by
computation and the characterization applies with today = 5. -/
theorem C5_current_streak_chain_witness :
    (chainHistory.any (fun c => c.date == (5 : Int)) = false →
      currentStreakOf 5 chainHistory = 0)
    ∧ (chainHistory.any (fun c => c.date == (5 : Int)) = true →
        (∀ j : Nat, j < currentStreakOf 5 chainHistory →
          ∃ c ∈ chainHistory, c.date = 5 - (j : Int))
        ∧ ¬ ∃ c ∈ chainHistory, c.date = 5 - ((currentStreakOf 5 chainHistory : Nat) : Int)) :=
  C5_current_streak_chain chainHistory 5 (by decide) (by decide)

/-! ## C9: invariants relating the two scans -/

/-- Helper: the longest-streak loop never drops below its running
maximum. -/
theorem lsg_mono (ds : List Int) : ∀ (p : Int) (temp long : Nat),
    long ≤ longestScanGo p temp long ds := by
  induction ds with
  | nil =>
    intro p temp long
    simp [longestScanGo]
  | cons d rest ih =>
    intro p temp long
    by_cases h1 : p - d = 1
    · have hstep : longestScanGo p temp long (d :: rest) =
          longestScanGo d (temp + 1) (max long (temp + 1)) rest := by
        simp [longestScanGo, h1]
      rw [hstep]
      exact (le_max_left long (temp + 1)).trans (ih d (temp + 1) (max long (temp + 1)))
    · by_cases h2 : p - d > 1
      · have hstep : longestScanGo p temp long (d :: rest) = longestScanGo d 1 long rest := by
          simp [longestScanGo, h1, h2]
        rw [hstep]
        exact ih d 1 long
      · have hstep : longestScanGo p temp long (d :: rest) = longestScanGo d temp long rest := by
          simp [longestScanGo, h1, h2]
        rw [hstep]
        exact ih d temp long

/-- Helper: the prefix counted by the current-streak loop is one of the
runs tracked by the longest-streak loop, so the latter's maximum bounds
it. -/
theorem csg_le_lsg (ds : List Int) : ∀ (p : Int) (temp long : Nat), temp ≤ long →
    temp + currentScanGo p ds ≤ longestScanGo p temp long ds := by
  induction ds with
  | nil =>
    intro p temp long h
    simpa [currentScanGo, longestScanGo] using h
  | cons d rest ih =>
    intro p temp long h
    by_cases h1 : p - d = 1
    · have hc : currentScanGo p (d :: rest) = 1 + currentScanGo d rest := by
        simp [currentScanGo, h1]
      have hl : longestScanGo p temp long (d :: rest) =
          longestScanGo d (temp + 1) (max long (temp + 1)) rest := by
        simp [longestScanGo, h1]
      rw [hc, hl]
      have := ih d (temp + 1) (max long (temp + 1)) (le_max_right _ _)
      omega
    · by_cases h2 : p - d > 1
      · have hc : currentScanGo p (d :: rest) = 0 := by
          simp [currentScanGo, h1, h2]
        have hl : longestScanGo p temp long (d :: rest) = longestScanGo d 1 long rest := by
          simp [longestScanGo, h1, h2]
        rw [hc, hl]
        have := lsg_mono rest d 1 long
        omega
      · have hc : currentScanGo p (d :: rest) = currentScanGo d rest := by
          simp [currentScanGo, h1, h2]
        have hl : longestScanGo p temp long (d :: rest) = longestScanGo d temp long rest := by
          simp [longestScanGo, h1, h2]
        rw [hc, hl]
        exact ih d temp long h

/-- Helper: on any date sequence the current-streak count is at most
the longest-streak count. -/
theorem currentDates_le_longestDates (today : Int) (ds : List Int) :
    currentDates today ds ≤ longestDates ds := by
  cases ds with
  | nil => simp [currentDates, longestDates]
  | cons p rest =>
    by_cases hany : (p :: rest).any (fun d => d == today) = true
    · have hc : currentDates today (p :: rest) = 1 + currentScanGo p rest := by
        simp [currentDates, hany]
      have hl : longestDates (p :: rest) = longestScanGo p 1 1 rest := rfl
      rw [hc, hl]
      exact csg_le_lsg rest p 1 1 le_rfl
    · have hc : currentDates today (p :: rest) = 0 := by
        simp [currentDates, hany]
      simp [hc]

/-- Helper: the streak record produced by the pure core always has
`current_streak ≤ longest_streak`. -/
theorem calcCore_current_le_longest (uid : String) (dt : Option String) (today : Int)
    (l : List CheckIn) :
    (calcCore uid dt today l).current_streak ≤ (calcCore uid dt today l).longest_streak := by
  unfold calcCore
  by_cases he : (historyWithVirtual uid dt today l).isEmpty = true
  · simp [he]
  · simp only [he, if_false, Bool.false_eq_true]
    exact currentDates_le_longestDates today _

/-- C9: whenever the engine-level streak computation succeeds, the
returned record satisfies `current_streak ≤ longest_streak` (and being
a natural number it is nonnegative); and whenever the in-memory history
(persisted check-ins plus the virtual entry when inserted) is
non-empty, `longest_streak` is at least 1, even when the current streak
is 0. -/
theorem C9_streak_bounds :
    (∀ (st : State) (uid : String) (today : Int) (r : StreakData) (st2 : State),
        calculateStreak st uid today = Except.ok (r, st2) →
        r.current_streak ≤ r.longest_streak)
    ∧ (∀ (uid : String) (dt : Option String) (today : Int) (l : List CheckIn),
        historyWithVirtual uid dt today l ≠ [] →
        1 ≤ (calcCore uid dt today l).longest_streak) := by
  constructor
  · intro st uid today r st2 h
    unfold calculateStreak at h
    cases hres : getScheduledDayType st uid today with
    | error e =>
      rw [hres] at h
      exact Except.noConfusion h
    | ok v =>
      obtain ⟨dt, st3⟩ := v
      rw [hres] at h
      simp only [Except.ok.injEq, Prod.mk.injEq] at h
      rw [← h.1]
      exact calcCore_current_le_longest uid dt today _
  · intro uid dt today l hne
    unfold calcCore
    have he : (historyWithVirtual uid dt today l).isEmpty = false := by
      cases hh : historyWithVirtual uid dt today l with
      | nil => exact absurd hh hne
      | cons a r => rfl
    simp only [he, Bool.false_eq_true, if_false]
    cases hh : historyWithVirtual uid dt today l with
    | nil => exact absurd hh hne
    | cons a r =>
      show 1 ≤ longestStreakOf (a :: r)
      unfold longestStreakOf longestDates
      simp only [List.map_cons]
      exact lsg_mono (r.map (fun c => c.date)) a.date 1 1

/-- Witness for C9 at concrete inputs: the successful computation on
the all-rest weekly store returns 1 ≤ 1, and a one-entry history gives
a longest streak of at least 1. -/
theorem C9_streak_bounds_witness :
    ({ current_streak := 1, longest_streak := 1, total_checkins := 0 } : StreakData).current_streak ≤
      ({ current_streak := 1, longest_streak := 1, total_checkins := 0 } : StreakData).longest_streak
    ∧ 1 ≤ (calcCore "u1" none 0
        [{ id := "a", user_id := "u1", date := 0, status := "went" }]).longest_streak :=
  ⟨C9_streak_bounds.1 weeklyRestState "u1" 0
      { current_streak := 1, longest_streak := 1, total_checkins := 0 } weeklyRestState (by decide),
   C9_streak_bounds.2 "u1" none 0
      [{ id := "a", user_id := "u1", date := 0, status := "went" }] (by decide)⟩

/-! ## C6: the longest-streak scan -/

/-- The gaps between adjacent entries of a date sequence, in scan
order. -/
def adjacentGaps : List Int → List Int
  | a :: b :: rest => (a - b) :: adjacentGaps (b :: rest)
  | _ => []

/-- One step of the longest-streak scan as the specification words it,
on a state of (running count, maximum observed): a gap of 1 increments
the running count and updates the maximum, a gap greater than 1 resets
the running count to 1 instead of terminating, any other gap (0 for a
duplicate date) changes nothing. -/
def specLongestStep (acc : Nat × Nat) (gap : Int) : Nat × Nat :=
  if gap = 1 then (acc.1 + 1, max acc.2 (acc.1 + 1))
  else if gap > 1 then (1, acc.2)
  else acc

/-- The longest streak as the specification words it: the maximum
running count over a scan of the whole date-ordered sequence's adjacent
gaps, both counters starting at 1. -/
def specLongest (ds : List Int) : Nat :=
  (List.foldl specLongestStep (1, 1) (adjacentGaps ds)).2

/-- Helper: the source's longest-streak loop equals the fold of the
specification's step function over the adjacent gaps. -/
theorem lsg_eq_foldl (ds : List Int) : ∀ (p : Int) (temp long : Nat),
    longestScanGo p temp long ds =
      (List.foldl specLongestStep (temp, long) (adjacentGaps (p :: ds))).2 := by
  induction ds with
  | nil =>
    intro p temp long
    simp [longestScanGo, adjacentGaps]
  | cons d rest ih =>
    intro p temp long
    rw [show adjacentGaps (p :: d :: rest) = (p - d) :: adjacentGaps (d :: rest) from rfl,
        List.foldl_cons]
    by_cases h1 : p - d = 1
    · rw [show longestScanGo p temp long (d :: rest) =
            longestScanGo d (temp + 1) (max long (temp + 1)) rest from by
          simp [longestScanGo, h1],
          show specLongestStep (temp, long) (p - d) = (temp + 1, max long (temp + 1)) from by
          simp [specLongestStep, h1]]
      exact ih d (temp + 1) (max long (temp + 1))
    · by_cases h2 : p - d > 1
      · rw [show longestScanGo p temp long (d :: rest) = longestScanGo d 1 long rest from by
            simp [longestScanGo, h1, h2],
            show specLongestStep (temp, long) (p - d) = (1, long) from by
            simp [specLongestStep, h1, h2]]
        exact ih d 1 long
      · rw [show longestScanGo p temp long (d :: rest) = longestScanGo d temp long rest from by
            simp [longestScanGo, h1, h2],
            show specLongestStep (temp, long) (p - d) = (temp, long) from by
            simp [specLongestStep, h1, h2]]
        exact ih d temp long

/-- A history dated D, D-2, D-3 in descending order: a one-day gap sits
at D-1 and the pair (D-2, D-3) is adjacent. -/
def exampleHistory (D : Int) : List CheckIn :=
  [{ id := "a", user_id := "u1", date := D, status := "went" },
   { id := "b", user_id := "u1", date := D - 2, status := "went" },
   { id := "c", user_id := "u1", date := D - 3, status := "went" }]

/-- C6: the source's longest-streak value equals the maximum running
count of the specification's scan over the date-ordered history's
adjacent gaps (same gap classification as the current-streak scan, with
a gap greater than 1 resetting the running count to 1 instead of
terminating); and on the history dated D, D-2, D-3 with today = D the
code yields `current_streak = 1` but `longest_streak = 2` from the run
over (D-2, D-3). -/
theorem C6_longest_scan :
    (∀ l : List CheckIn, longestStreakOf l = specLongest (l.map (fun c => c.date)))
    ∧ (∀ D : Int, currentStreakOf D (exampleHistory D) = 1
        ∧ longestStreakOf (exampleHistory D) = 2) := by
  constructor
  · intro l
    cases hl : l.map (fun c => c.date) with
    | nil =>
      unfold longestStreakOf longestDates specLongest
      rw [hl]
      simp [adjacentGaps]
    | cons p rest =>
      unfold longestStreakOf longestDates specLongest
      rw [hl]
      exact lsg_eq_foldl rest p 1 1
  · intro D
    have g1 : D - (D - 2) = 2 := by ring
    have g2 : D - 2 - (D - 3) = 1 := by ring
    constructor
    · show currentStreakOf D (exampleHistory D) = 1
      unfold currentStreakOf exampleHistory currentDates
      have hany : (([{ id := "a", user_id := "u1", date := D, status := "went" },
          { id := "b", user_id := "u1", date := D - 2, status := "went" },
          { id := "c", user_id := "u1", date := D - 3, status := "went" }] : List CheckIn).map
            (fun c => c.date)).any (fun d => d == D) = true := by
        simp
      rw [hany]
      simp only [List.map_cons, List.map_nil, if_true]
      rw [show currentScanGo D [D - 2, D - 3] = 0 from by
        simp [currentScanGo, g1]]
    · show longestStreakOf (exampleHistory D) = 2
      unfold longestStreakOf exampleHistory longestDates
      simp only [List.map_cons, List.map_nil]
      rw [show longestScanGo D 1 1 [D - 2, D - 3] = longestScanGo (D - 2) 1 1 [D - 3] from by
        simp [longestScanGo, g1],
        show longestScanGo (D - 2) 1 1 [D - 3] = longestScanGo (D - 3) 2 2 [] from by
        simp [longestScanGo, g2]]
      rfl

/-! ## C10: the scans read dates and ids only, never statuses -/

/-- Helper: the persisted-entry count reads only the id projection. -/
theorem filter_virtual_len_eq (l1 l2 : List CheckIn)
    (h : l1.map (fun c => c.id) = l2.map (fun c => c.id)) :
    (l1.filter (fun c => c.id != "virtual_rest")).length =
      (l2.filter (fun c => c.id != "virtual_rest")).length := by
  induction l1 generalizing l2 with
  | nil =>
    cases l2 with
    | nil => rfl
    | cons b u => simp at h
  | cons a t ih =>
    cases l2 with
    | nil => simp at h
    | cons b u =>
      simp only [List.map_cons, List.cons.injEq] at h
      obtain ⟨hab, htu⟩ := h
      rw [List.filter_cons, List.filter_cons, ← hab]
      cases hc : (a.id != "virtual_rest") with
      | true => simp [ih u htu]
      | false => simp [ih u htu]

/-- Helper: the streak record built from a history depends only on its
date and id projections. -/
theorem streakRecord_congr (today : Int) (h1 h2 : List CheckIn)
    (hd : h1.map (fun c => c.date) = h2.map (fun c => c.date))
    (hid : h1.map (fun c => c.id) = h2.map (fun c => c.id)) :
    (if h1.isEmpty then
       ({ current_streak := 0, longest_streak := 0, total_checkins := 0 } : StreakData)
     else
       { current_streak := currentStreakOf today h1
         longest_streak := longestStreakOf h1
         total_checkins := (h1.filter (fun c => c.id != "virtual_rest")).length }) =
    (if h2.isEmpty then
       ({ current_streak := 0, longest_streak := 0, total_checkins := 0 } : StreakData)
     else
       { current_streak := currentStreakOf today h2
         longest_streak := longestStreakOf h2
         total_checkins := (h2.filter (fun c => c.id != "virtual_rest")).length }) := by
  have hemp : h1.isEmpty = h2.isEmpty := by
    cases h1 <;> cases h2 <;> simp_all
  by_cases he : h1.isEmpty = true
  · rw [if_pos he, if_pos (by rw [← hemp]; exact he)]
  · rw [if_neg he, if_neg (by rw [← hemp]; exact he)]
    have hc : currentStreakOf today h1 = currentStreakOf today h2 := by
      unfold currentStreakOf
      rw [hd]
    have hlg : longestStreakOf h1 = longestStreakOf h2 := by
      unfold longestStreakOf
      rw [hd]
    rw [hc, hlg, filter_virtual_len_eq h1 h2 hid]

/-- C10: the streak core is blind to statuses: two histories with the
same dates and the same ids (and arbitrary, possibly different,
statuses) produce the same streak record, so a "missed" or "rest"
check-in on an adjacent day extends both streaks exactly as a "went"
one does; and `total_checkins` counts every persisted entry whatever
its status. -/
theorem C10_status_blind :
    (∀ (uid : String) (dt : Option String) (today : Int) (l1 l2 : List CheckIn),
        l1.map (fun c => c.date) = l2.map (fun c => c.date) →
        l1.map (fun c => c.id) = l2.map (fun c => c.id) →
        calcCore uid dt today l1 = calcCore uid dt today l2)
    ∧ (∀ (uid : String) (dt : Option String) (today : Int) (l : List CheckIn),
        (∀ c ∈ l, c.id ≠ "virtual_rest") →
        (calcCore uid dt today l).total_checkins = l.length) := by
  constructor
  · intro uid dt today l1 l2 hd hid
    have hany : l1.any (fun c => c.date == today) = l2.any (fun c => c.date == today) := by
      rw [← any_dates_eq, ← any_dates_eq, hd]
    unfold calcCore historyWithVirtual
    by_cases hcond : (dt == some "rest" && !(l1.any (fun c => c.date == today))) = true
    · have hcond2 : (dt == some "rest" && !(l2.any (fun c => c.date == today))) = true := by
        rw [← hany]
        exact hcond
      rw [if_pos hcond, if_pos hcond2]
      exact streakRecord_congr today (virtualRest uid today :: l1) (virtualRest uid today :: l2)
        (by simp [hd]) (by simp [hid])
    · have hcond2 : ¬ ((dt == some "rest" && !(l2.any (fun c => c.date == today))) = true) := by
        rw [← hany]
        exact hcond
      rw [if_neg hcond, if_neg hcond2]
      exact streakRecord_congr today l1 l2 hd hid
  · intro uid dt today l hvirt
    have hfl : l.filter (fun c => c.id != "virtual_rest") = l := by
      rw [List.filter_eq_self]
      intro c hc
      exact bne_iff_ne.mpr (hvirt c hc)
    unfold calcCore historyWithVirtual
    by_cases hcond : (dt == some "rest" && !(l.any (fun c => c.date == today))) = true
    · rw [if_pos hcond]
      have : ((virtualRest uid today :: l).filter (fun c => c.id != "virtual_rest")) = l := by
        rw [List.filter_cons_of_neg (by simp [virtualRest])]
        exact hfl
      simp only [List.isEmpty_cons, Bool.false_eq_true, if_false, this]
    · rw [if_neg hcond]
      by_cases he : l.isEmpty = true
      · rw [if_pos he]
        have : l = [] := List.isEmpty_iff.mp he
        rw [this]
        rfl
      · rw [if_neg he]
        simp only [hfl]

/-- Two histories for the C10 witness, identical except in statuses:
the first logs "went" then "missed", the second "went" twice. -/
def statusHistoryA : List CheckIn :=
  [{ id := "a", user_id := "u1", date := 5, status := "went" },
   { id := "b", user_id := "u1", date := 4, status := "missed" }]

/-- The same dates and ids with both statuses "went". -/
def statusHistoryB : List CheckIn :=
  [{ id := "a", user_id := "u1", date := 5, status := "went" },
   { id := "b", user_id := "u1", date := 4, status := "went" }]

/-- Witness for C10 at concrete histories: replacing a "missed" status
by "went" leaves the whole streak record unchanged, and the total
counts both entries. -/
theorem C10_status_blind_witness :
    calcCore "u1" none 5 statusHistoryA = calcCore "u1" none 5 statusHistoryB
    ∧ (calcCore "u1" none 5 statusHistoryA).total_checkins = statusHistoryA.length :=
  ⟨C10_status_blind.1 "u1" none 5 statusHistoryA statusHistoryB (by decide) (by decide),
   C10_status_blind.2 "u1" none 5 statusHistoryA (by decide)⟩
